import Mathlib

/-!
Verification of the badge-editor transform and compositing pipeline
(src/index.js) against its specification.

JavaScript numbers are modelled as exact rationals (ℚ): every operation the
claims touch (add, sub, mul, div, max, min) is algebraic, and the spec's
geometry statements are stated as exact identities.  Strings are modelled as
lists of Unicode code points / bytes where the claim is about text.
-/

namespace Badge

/-- Preview container size (`PREVIEW_SIZE` in src/index.js:31). -/
def PREVIEW_SIZE : ℚ := 200

/-- Canvas output size (`CANVAS_SIZE` in src/index.js:34). -/
def CANVAS_SIZE : ℚ := 500

/-- The module-level image transform state of src/index.js:14-28
(`imageScale`, `imageOffsetX`, `imageOffsetY`, `baseCoverScale`,
`naturalWidth`, `naturalHeight`), gathered into one record since the
operators read and write exactly these fields. -/
structure TransformState where
  imageScale : ℚ
  imageOffsetX : ℚ
  imageOffsetY : ℚ
  baseCoverScale : ℚ
  naturalWidth : ℚ
  naturalHeight : ℚ
  deriving Repr, DecidableEq

/-- The base cover-scale computation of `resetImageTransform`
(src/index.js:49-51): `max(PREVIEW_SIZE / naturalWidth, PREVIEW_SIZE /
naturalHeight)`, with the viewport side `V` exposed as a parameter
(the source fixes `V = PREVIEW_SIZE = 200`). -/
def coverScale (W H V : ℚ) : ℚ :=
  max (V / W) (V / H)

/-- Model of `resetImageTransform` (src/index.js:43-59): records the natural
dimensions, sets `baseCoverScale` from the cover computation and resets
zoom and pan.  The source performs no validation of the dimensions: the
function is total, and for a zero dimension the JS division yields
`Infinity` (a model artifact maps it to ℚ's `200 / 0 = 0`; no error is
raised either way and every field is still overwritten). -/
def resetImageTransform (W H : ℚ) : TransformState :=
  { naturalWidth := W
    naturalHeight := H
    baseCoverScale := coverScale W H PREVIEW_SIZE
    imageScale := 1
    imageOffsetX := 0
    imageOffsetY := 0 }

/-- The geometry computed by `updateImagePreview` (src/index.js:66-85):
returns `(translateX, translateY, finalScale)` used in the CSS transform
`translate(translateX, translateY) scale(finalScale)`. -/
def updateImagePreview (s : TransformState) : ℚ × ℚ × ℚ :=
  let finalScale := s.baseCoverScale * s.imageScale
  let scaledWidth := s.naturalWidth * finalScale
  let scaledHeight := s.naturalHeight * finalScale
  let centerX := (PREVIEW_SIZE - scaledWidth) / 2
  let centerY := (PREVIEW_SIZE - scaledHeight) / 2
  (centerX + s.imageOffsetX, centerY + s.imageOffsetY, finalScale)

/-- Model of `clampOffset` (src/index.js:92-109): clamps both pan offsets into
`[-maxOffset, +maxOffset]` where `maxOffset = max(0, (scaledDim -
PREVIEW_SIZE) / 2)` per axis. -/
def clampOffset (s : TransformState) : TransformState :=
  let finalScale := s.baseCoverScale * s.imageScale
  let scaledWidth := s.naturalWidth * finalScale
  let scaledHeight := s.naturalHeight * finalScale
  let overflowX := (scaledWidth - PREVIEW_SIZE) / 2
  let overflowY := (scaledHeight - PREVIEW_SIZE) / 2
  let maxOffsetX := max 0 overflowX
  let maxOffsetY := max 0 overflowY
  { s with
    imageOffsetX := max (-maxOffsetX) (min maxOffsetX s.imageOffsetX)
    imageOffsetY := max (-maxOffsetY) (min maxOffsetY s.imageOffsetY) }

/-- Model of `handleZoom` (src/index.js:116-127): one wheel tick.  `deltaY > 0`
zooms out by factor `0.9`, otherwise zooms in by `1.1`; the product is
clamped into `[1, 5]` and the offsets re-clamped. -/
def handleZoom (s : TransformState) (deltaY : ℚ) : TransformState :=
  let zoomFactor : ℚ := if deltaY > 0 then 9/10 else 11/10
  let newScale := s.imageScale * zoomFactor
  clampOffset { s with imageScale := max 1 (min 5 newScale) }

/-- One pan step of the mousemove/touchmove handlers
(src/index.js:148-161, 177-190): add the raw deltas to the offsets, then
re-clamp. -/
def panBy (s : TransformState) (dx dy : ℚ) : TransformState :=
  clampOffset { s with
    imageOffsetX := s.imageOffsetX + dx
    imageOffsetY := s.imageOffsetY + dy }

/-- The geometry computed by `draw` (src/index.js:280-299) for the
output canvas: `(drawX, drawY, drawWidth, drawHeight, canvasScale)`. -/
def drawGeometry (s : TransformState) : ℚ × ℚ × ℚ × ℚ × ℚ :=
  let previewToCanvas := CANVAS_SIZE / PREVIEW_SIZE
  let finalScale := s.baseCoverScale * s.imageScale
  let canvasScale := finalScale * previewToCanvas
  let scaledWidth := s.naturalWidth * finalScale
  let scaledHeight := s.naturalHeight * finalScale
  let centerX := (PREVIEW_SIZE - scaledWidth) / 2
  let centerY := (PREVIEW_SIZE - scaledHeight) / 2
  ((centerX + s.imageOffsetX) * previewToCanvas,
   (centerY + s.imageOffsetY) * previewToCanvas,
   s.naturalWidth * canvasScale,
   s.naturalHeight * canvasScale,
   canvasScale)

/-- Spec-side predicate: each pan offset lies within `[-overflow,
+overflow]` where `overflow = max(0, scaledDimension - PREVIEW_SIZE)/2`
per axis (the clamp range of `clampOffset`, src/index.js:98-103). -/
def OffsetsWithinOverflow (s : TransformState) : Prop :=
  |s.imageOffsetX| ≤
    max 0 ((s.naturalWidth * (s.baseCoverScale * s.imageScale) - PREVIEW_SIZE) / 2) ∧
  |s.imageOffsetY| ≤
    max 0 ((s.naturalHeight * (s.baseCoverScale * s.imageScale) - PREVIEW_SIZE) / 2)

/-- Spec-side predicate: the image rectangle drawn by the preview renderer
(`updateImagePreview`, top-left at the translate, extent the scaled
dimensions) fully contains the viewport rectangle
`[0, PREVIEW_SIZE] × [0, PREVIEW_SIZE]` — no gap on any edge. -/
def ViewportCovered (s : TransformState) : Prop :=
  (updateImagePreview s).1 ≤ 0 ∧
  PREVIEW_SIZE ≤ (updateImagePreview s).1 +
    s.naturalWidth * (s.baseCoverScale * s.imageScale) ∧
  (updateImagePreview s).2.1 ≤ 0 ∧
  PREVIEW_SIZE ≤ (updateImagePreview s).2.1 +
    s.naturalHeight * (s.baseCoverScale * s.imageScale)

mutual

/-- A DOM element tree as the overlay serializer sees it: tag name,
attribute list (attribute names are unique in a DOM element, document
order), the element's computed style — the ordered property/value
sequence `getComputedStyle` exposes (src/index.js:238-242), carried as
fixed data since the claims fix the computed-style state — and the child
elements. -/
inductive Elem where
  | mk (tag : String) (attrs : List (String × String))
       (computed : List (String × String)) (children : ElemList)

/-- A list of sibling DOM elements (`element.children`). -/
inductive ElemList where
  | nil
  | cons (e : Elem) (rest : ElemList)

end

/-- Model of `element.setAttribute(k, v)` on an attribute list: replaces
the value in place when the name is present (names are unique), appends
otherwise. -/
def setAttr : List (String × String) → String → String → List (String × String)
  | [], k, v => [(k, v)]
  | (k', v') :: rest, k, v =>
    if k' = k then (k, v) :: rest else (k', v') :: setAttr rest k v

/-- The style string built by `inlineStyles` (src/index.js:239-243):
the concatenation of all computed properties as the loop accumulates it,
one `prop: value; ` segment per property, in order. -/
def styleString (computed : List (String × String)) : String :=
  computed.foldl (fun acc p => acc ++ p.1 ++ ": " ++ p.2 ++ "; ") ""

mutual

/-- Model of `inlineStyles` (src/index.js:237-250): set the element's
`style` attribute to the concatenation of its computed style, then
recurse into the children (the source mutates the live tree; the model
returns the mutated tree). -/
def inlineStylesE : Elem → Elem
  | .mk tag attrs computed children =>
    .mk tag (setAttr attrs "style" (styleString computed)) computed
      (inlineStylesL children)

/-- Model of the `inlineStyles` child loop (src/index.js:246-249). -/
def inlineStylesL : ElemList → ElemList
  | .nil => .nil
  | .cons e rest => .cons (inlineStylesE e) (inlineStylesL rest)

end

mutual

/-- Model of `XMLSerializer.serializeToString` on the element tree:
a deterministic pre-order print of tag, attributes and children. -/
def serializeE : Elem → String
  | .mk tag attrs _ children =>
    "<" ++ tag ++
      attrs.foldl (fun acc p => acc ++ " " ++ p.1 ++ "=\x22" ++ p.2 ++ "\x22") "" ++
      ">" ++ serializeL children ++ "</" ++ tag ++ ">"

/-- Serialization of a sibling list, in document order. -/
def serializeL : ElemList → String
  | .nil => ""
  | .cons e rest => serializeE e ++ serializeL rest

end

/-- The failure values the drawing path can surface, plus the
`MissingOverlayElement` error the spec names (§7); the code defines no
such error, so no code path below produces that constructor. -/
inductive JsError where
  | typeError
  | imageLoadError (src : String)
  | missingOverlayElement
  deriving DecidableEq, Repr

/-- Model of `getSvgString` (src/index.js:258-262) as `draw` invokes it on
`getById('overlay-svg')`: when the overlay element is absent `getById`
returns null and the first step of `inlineStyles`,
`getComputedStyle(element)`, throws a TypeError; otherwise the styles are
inlined (mutating the tree) and the tree is serialized.  Returns the
string together with the mutated tree. -/
def getSvgString : Option Elem → Except JsError (String × Elem)
  | none => .error .typeError
  | some svg =>
    let svg' := inlineStylesE svg
    .ok (serializeE svg', svg')

/-- One canvas operation performed by `draw`. -/
inductive CanvasOp where
  | clearRect
  | drawImage (x y w h : ℚ)
  | drawOverlay (svgStr : String)
  deriving DecidableEq

/-- The environment `draw` reads: the portrait decode result
(`imageWithLoadedSrc(imagePreview.src)`), the overlay element looked up by
id, the overlay-data-URI decode result, and the transform state. -/
structure DrawEnv where
  imageLoad : Except JsError Unit
  overlay : Option Elem
  svgImageLoad : Except JsError Unit
  state : TransformState

/-- Model of the `draw` pipeline (src/index.js:270-309) as the sequence of
canvas operations it performs before finishing or throwing: clear the
canvas, await the portrait decode (its rejection aborts), draw the
portrait at `drawGeometry`, serialize the overlay (a missing node throws
a TypeError), await the overlay decode, draw the overlay.  Returns the
executed operations and the error that interrupted the run, if any. -/
def draw (env : DrawEnv) : List CanvasOp × Option JsError :=
  let ops0 := [CanvasOp.clearRect]
  match env.imageLoad with
  | .error e => (ops0, some e)
  | .ok _ =>
    let g := drawGeometry env.state
    let ops1 := ops0 ++ [CanvasOp.drawImage g.1 g.2.1 g.2.2.1 g.2.2.2.1]
    match getSvgString env.overlay with
    | .error e => (ops1, some e)
    | .ok (svgStr, _) =>
      match env.svgImageLoad with
      | .error e => (ops1, some e)
      | .ok _ => (ops1 ++ [CanvasOp.drawOverlay svgStr], none)

/-- Model of `download` (src/index.js:316-324): awaits `draw`; when `draw`
rejects, the remaining statements never run and no file is produced;
otherwise the canvas is encoded and offered under the fixed filename. -/
def download (env : DrawEnv) : Option String :=
  match (draw env).2 with
  | some _ => none
  | none => some "linkedin-profile.png"

/-- Bytes `encodeURIComponent` keeps literal (ECMA-262 `uriUnescaped`:
ASCII letters, digits, and `- _ . ! ~ * ' ( )`). -/
def isUnreservedByte (b : Nat) : Bool :=
  (65 ≤ b && b ≤ 90) || (97 ≤ b && b ≤ 122) || (48 ≤ b && b ≤ 57) ||
  b == 45 || b == 95 || b == 46 || b == 33 || b == 126 || b == 42 ||
  b == 39 || b == 40 || b == 41

/-- Upper-case hexadecimal digit of a value below 16, as
`encodeURIComponent` emits. -/
def hexUpper (n : Nat) : Nat :=
  if n < 10 then 48 + n else 55 + n

/-- Percent-encoding of one byte: unreserved bytes stay literal, every
other byte becomes `%XX`. -/
def encodeByte (b : Nat) : List Nat :=
  if isUnreservedByte b then [b] else [37, hexUpper (b / 16), hexUpper (b % 16)]

/-- Model of `encodeURIComponent(svgStr)` (src/index.js:306) over the
UTF-8 bytes of the serialized overlay: each byte is kept literal or
percent-escaped. -/
def encodeURIComponentBytes (s : List Nat) : List Nat :=
  s.foldr (fun b acc => encodeByte b ++ acc) []

/-- Value of one hexadecimal digit character, case-insensitive. -/
def hexVal (c : Nat) : Option Nat :=
  if 48 ≤ c ∧ c ≤ 57 then some (c - 48)
  else if 65 ≤ c ∧ c ≤ 70 then some (c - 55)
  else if 97 ≤ c ∧ c ≤ 102 then some (c - 87)
  else none

/-- Percent-decoding, as the browser's data-URI handling applies it to
the embedded overlay before the SVG decoder runs: `%XX` becomes the byte
`XX`, every other byte is literal. -/
def percentDecode : List Nat → Option (List Nat)
  | [] => some []
  | c :: rest =>
    if c = 37 then
      match rest with
      | h :: l :: rest2 =>
        match hexVal h, hexVal l, percentDecode rest2 with
        | some hv, some lv, some r => some ((16 * hv + lv) :: r)
        | _, _, _ => none
      | _ => none
    else
      match percentDecode rest with
      | some r => some (c :: r)
      | none => none

/-- The bytes of the data-URI prefix `data:image/svg+xml;charset=utf-8,`
(src/index.js:305). -/
def svgDataUriPrefix : List Nat :=
  ("data:image/svg+xml;charset=utf-8,".toList).map Char.toNat

/-- The full data URI `draw` builds for the overlay (src/index.js:305-306):
the prefix followed by the percent-encoded serialized overlay bytes. -/
def svgDataUri (s : List Nat) : List Nat :=
  svgDataUriPrefix ++ encodeURIComponentBytes s

/-- Model of `str.replaceAll(p, r)` (src/index.js:204-208) specialised to
the single-character patterns `sanitizeHTML` uses: every occurrence of
the character `p` is replaced by `r`. -/
def replaceAllChar : List Char → Char → List Char → List Char
  | [], _, _ => []
  | x :: xs, p, r => (if x = p then r else [x]) ++ replaceAllChar xs p r

/-- The ampersand character. -/
def ampChar : Char := '&'

/-- The less-than character. -/
def ltChar : Char := '<'

/-- The greater-than character. -/
def gtChar : Char := '>'

/-- The double-quote character. -/
def quotChar : Char := Char.ofNat 34

/-- The apostrophe character. -/
def aposChar : Char := Char.ofNat 39

/-- Model of `sanitizeHTML` (src/index.js:203-209): replaces `&`, `<`,
`>`, double quote and apostrophe by their HTML entities, in the source's
chain order. -/
def sanitizeHTML (s : List Char) : List Char :=
  replaceAllChar
    (replaceAllChar
      (replaceAllChar
        (replaceAllChar
          (replaceAllChar s ampChar ("&amp;".toList))
          ltChar ("&lt;".toList))
        gtChar ("&gt;".toList))
      quotChar ("&quot;".toList))
    aposChar ("&#39;".toList)

/-- Model of `String.prototype.toUpperCase` on the ASCII range: lower-case
letters map to upper case, every other character — including the five
HTML-special characters — is unchanged. -/
def asciiUpper (c : Char) : Char :=
  if 97 ≤ c.toNat ∧ c.toNat ≤ 122 then Char.ofNat (c.toNat - 32) else c

/-- JavaScript `value.toUpperCase()` over the characters of the input. -/
def jsToUpper (s : List Char) : List Char :=
  s.map asciiUpper

/-- The bison emoji prepended to the badge text (src/index.js:340). -/
def bisonChar : Char := Char.ofNat 129452

/-- Model of the badge-text input listener (src/index.js:338-341): the
overlay text node's `innerHTML` is set to the bison emoji followed by the
upper-cased raw input value; `sanitizeHTML` is not invoked on this
path. -/
def badgeTextInnerHTML (value : List Char) : List Char :=
  bisonChar :: jsToUpper value

end Badge

namespace Badge

/-- C1: Geometry consistency between the Compositor (`draw`) and the
preview renderer (`updateImagePreview`).  For every TransformState, the
output-canvas scale is `baseCoverScale * scale * (500/200)`, the draw
position is the preview translate times `500/200`, and the drawn size is
the preview scaled size times `500/200`, with `500/200 =
CANVAS_SIZE / PREVIEW_SIZE` the exact ratio. -/
theorem draw_matches_preview_scaled (s : TransformState) :
    let r := CANVAS_SIZE / PREVIEW_SIZE
    let p := updateImagePreview s
    r = 500 / 200 ∧
    (drawGeometry s).1 = p.1 * r ∧
    (drawGeometry s).2.1 = p.2.1 * r ∧
    (drawGeometry s).2.2.2.2 = s.baseCoverScale * s.imageScale * r ∧
    (drawGeometry s).2.2.1 = s.naturalWidth * (s.baseCoverScale * s.imageScale) * r ∧
    (drawGeometry s).2.2.2.1 = s.naturalHeight * (s.baseCoverScale * s.imageScale) * r := by
  refine ⟨by norm_num [CANVAS_SIZE, PREVIEW_SIZE], ?_, ?_, ?_, ?_, ?_⟩ <;>
    simp [drawGeometry, updateImagePreview] <;> ring

/-- C2: the cover-fit scale computed on image load is
`max(V/W, V/H)`; for positive dimensions it satisfies the cover
invariant `coverScale W H V * min W H ≥ V`; and for the 800×400 image
with the source's 200-pixel viewport the computed `baseCoverScale`
is `0.5`. -/
theorem coverScale_covers (W H V : ℚ) (hW : 0 < W) (hH : 0 < H) (hV : 0 < V) :
    coverScale W H V = max (V / W) (V / H) ∧
    V ≤ coverScale W H V * min W H ∧
    (resetImageTransform 800 400).baseCoverScale = 1/2 := by
  refine ⟨rfl, ?_, by norm_num [resetImageTransform, coverScale, PREVIEW_SIZE]⟩
  rcases le_total W H with h | h
  · have hmin : min W H = W := min_eq_left h
    have hmax : V / H ≤ V / W := div_le_div_of_nonneg_left hV.le hW (by exact h)
    have : coverScale W H V = V / W := by
      simp [coverScale, max_eq_left hmax]
    rw [this, hmin, div_mul_cancel₀ _ (ne_of_gt hW)]
  · have hmin : min W H = H := min_eq_right h
    have hmax : V / W ≤ V / H := div_le_div_of_nonneg_left hV.le hH (by exact h)
    have : coverScale W H V = V / H := by
      simp [coverScale, max_eq_right hmax]
    rw [this, hmin, div_mul_cancel₀ _ (ne_of_gt hH)]

/-- Witness for C2 at W = 800, H = 400, V = 200. -/
theorem coverScale_covers_witness :
    (0 : ℚ) < 800 ∧ (0 : ℚ) < 400 ∧ (0 : ℚ) < 200 ∧
    ((coverScale 800 400 200 = max ((200:ℚ) / 800) (200 / 400)) ∧
     (200 : ℚ) ≤ coverScale 800 400 200 * min 800 400 ∧
     (resetImageTransform 800 400).baseCoverScale = 1/2) :=
  ⟨by norm_num, by norm_num, by norm_num,
   coverScale_covers 800 400 200 (by norm_num) (by norm_num) (by norm_num)⟩

/-- Clamping into `[-max 0 a, max 0 a]` twice equals clamping once. -/
lemma clamp_interval_idem (a x : ℚ) :
    max (-(max 0 a)) (min (max 0 a) (max (-(max 0 a)) (min (max 0 a) x))) =
      max (-(max 0 a)) (min (max 0 a) x) := by
  have h0 : (0:ℚ) ≤ max 0 a := le_max_left _ _
  have h1 : -(max 0 a) ≤ max (-(max 0 a)) (min (max 0 a) x) := le_max_left _ _
  have h2 : max (-(max 0 a)) (min (max 0 a) x) ≤ max 0 a :=
    max_le (by linarith) (min_le_left _ _)
  rw [min_eq_right h2, max_eq_right h1]

/-- One axis of the clamp-containment argument: if the scaled dimension
`d` is at least the viewport side `V`, then the value clamped into
`[-max 0 ((d-V)/2), +max 0 ((d-V)/2)]` keeps the drawn interval
`[(V-d)/2 + offset, (V-d)/2 + offset + d]` containing `[0, V]`. -/
lemma clamp_axis (V d x : ℚ) (hd : V ≤ d) :
    |max (-(max 0 ((d - V) / 2))) (min (max 0 ((d - V) / 2)) x)| ≤
      max 0 ((d - V) / 2) ∧
    (V - d) / 2 + max (-(max 0 ((d - V) / 2))) (min (max 0 ((d - V) / 2)) x) ≤ 0 ∧
    V ≤ (V - d) / 2 + max (-(max 0 ((d - V) / 2))) (min (max 0 ((d - V) / 2)) x) + d := by
  have h0 : 0 ≤ (d - V) / 2 := by linarith
  have hm : max 0 ((d - V) / 2) = (d - V) / 2 := max_eq_right h0
  rw [hm]
  have hub : max (-((d - V) / 2)) (min ((d - V) / 2) x) ≤ (d - V) / 2 :=
    max_le (by linarith) (min_le_left _ _)
  have hlb : -((d - V) / 2) ≤ max (-((d - V) / 2)) (min ((d - V) / 2) x) :=
    le_max_left _ _
  exact ⟨abs_le.mpr ⟨hlb, hub⟩, by linarith, by linarith⟩

/-- C3: for a TransformState with positive natural dimensions, user scale
≥ 1 and the base cover scale as set on image load, `clampOffset` leaves
each offset within `[-overflow, +overflow]` with `overflow =
max(0, scaledDim - PREVIEW_SIZE)/2` per axis, and the scaled image
rectangle then fully contains the viewport rectangle; and a pan delta
of (500, 500) on the freshly loaded 800×400 image (scale 1.0) is
clamped to offset 0 on the Y axis, whose overflow is 0. -/
theorem clampOffset_covers (s : TransformState)
    (hW : 0 < s.naturalWidth) (hH : 0 < s.naturalHeight)
    (hscale : 1 ≤ s.imageScale)
    (hbase : s.baseCoverScale = coverScale s.naturalWidth s.naturalHeight PREVIEW_SIZE) :
    OffsetsWithinOverflow (clampOffset s) ∧ ViewportCovered (clampOffset s) ∧
    (panBy (resetImageTransform 800 400) 500 500).imageOffsetY = 0 := by
  have hbpos : 0 < s.baseCoverScale := by
    rw [hbase]
    exact lt_of_lt_of_le (div_pos (by norm_num [PREVIEW_SIZE]) hW) (le_max_left _ _)
  have hfsW : PREVIEW_SIZE / s.naturalWidth ≤ s.baseCoverScale * s.imageScale :=
    calc PREVIEW_SIZE / s.naturalWidth ≤ s.baseCoverScale := hbase ▸ le_max_left _ _
    _ = s.baseCoverScale * 1 := (mul_one _).symm
    _ ≤ s.baseCoverScale * s.imageScale := mul_le_mul_of_nonneg_left hscale hbpos.le
  have hfsH : PREVIEW_SIZE / s.naturalHeight ≤ s.baseCoverScale * s.imageScale :=
    calc PREVIEW_SIZE / s.naturalHeight ≤ s.baseCoverScale := hbase ▸ le_max_right _ _
    _ = s.baseCoverScale * 1 := (mul_one _).symm
    _ ≤ s.baseCoverScale * s.imageScale := mul_le_mul_of_nonneg_left hscale hbpos.le
  have hsw : PREVIEW_SIZE ≤ s.naturalWidth * (s.baseCoverScale * s.imageScale) := by
    have := (div_le_iff₀ hW).mp hfsW
    linarith [this, mul_comm (s.baseCoverScale * s.imageScale) s.naturalWidth]
  have hsh : PREVIEW_SIZE ≤ s.naturalHeight * (s.baseCoverScale * s.imageScale) := by
    have := (div_le_iff₀ hH).mp hfsH
    linarith [this, mul_comm (s.baseCoverScale * s.imageScale) s.naturalHeight]
  have hx := clamp_axis PREVIEW_SIZE
    (s.naturalWidth * (s.baseCoverScale * s.imageScale)) s.imageOffsetX hsw
  have hy := clamp_axis PREVIEW_SIZE
    (s.naturalHeight * (s.baseCoverScale * s.imageScale)) s.imageOffsetY hsh
  refine ⟨⟨?_, ?_⟩, ⟨?_, ?_, ?_, ?_⟩, ?_⟩
  · simpa [OffsetsWithinOverflow, clampOffset] using hx.1
  · simpa [OffsetsWithinOverflow, clampOffset] using hy.1
  · simpa [ViewportCovered, updateImagePreview, clampOffset] using hx.2.1
  · simpa [ViewportCovered, updateImagePreview, clampOffset] using hx.2.2
  · simpa [ViewportCovered, updateImagePreview, clampOffset] using hy.2.1
  · simpa [ViewportCovered, updateImagePreview, clampOffset] using hy.2.2
  · norm_num [panBy, clampOffset, resetImageTransform, coverScale,
      PREVIEW_SIZE, max_def, min_def]

/-- Witness for C3 at the 800×400 image panned by (500, 500) after a
zoom to scale 2 (hypotheses discharged at that concrete state). -/
theorem clampOffset_covers_witness :
    ((0:ℚ) < (⟨2, 500, 500, 1/2, 800, 400⟩ : TransformState).naturalWidth ∧
     (0:ℚ) < (⟨2, 500, 500, 1/2, 800, 400⟩ : TransformState).naturalHeight ∧
     (1:ℚ) ≤ (⟨2, 500, 500, 1/2, 800, 400⟩ : TransformState).imageScale ∧
     (⟨2, 500, 500, 1/2, 800, 400⟩ : TransformState).baseCoverScale =
       coverScale 800 400 PREVIEW_SIZE) ∧
    (OffsetsWithinOverflow (clampOffset ⟨2, 500, 500, 1/2, 800, 400⟩) ∧
     ViewportCovered (clampOffset ⟨2, 500, 500, 1/2, 800, 400⟩) ∧
     (panBy (resetImageTransform 800 400) 500 500).imageOffsetY = 0) :=
  ⟨⟨by norm_num, by norm_num, by norm_num,
    by norm_num [coverScale, PREVIEW_SIZE, max_def]⟩,
   clampOffset_covers ⟨2, 500, 500, 1/2, 800, 400⟩
     (by norm_num) (by norm_num) (by norm_num)
     (by norm_num [coverScale, PREVIEW_SIZE, max_def])⟩

/-- C4: each zoom tick multiplies the scale by the fixed factor
(`0.9` when `deltaY > 0`, `1.1` otherwise) and clamps into `[1, 5]`;
starting from any scale in `[1, 5]`, every sequence of zoom events keeps
the scale in `[1, 5]`; and three zoom-in ticks from the freshly loaded
state give scale exactly `1.331` (no clamp cut it). -/
theorem handleZoom_bounds (s : TransformState) (d : ℚ) (ds : List ℚ)
    (hlo : 1 ≤ s.imageScale) (hhi : s.imageScale ≤ 5) :
    (handleZoom s d).imageScale =
      max 1 (min 5 (s.imageScale * (if 0 < d then 9/10 else 11/10))) ∧
    1 ≤ (ds.foldl handleZoom s).imageScale ∧
    (ds.foldl handleZoom s).imageScale ≤ 5 ∧
    (List.foldl handleZoom (resetImageTransform 800 400) [-1, -1, -1]).imageScale
      = 1331/1000 := by
  refine ⟨by simp [handleZoom, clampOffset, gt_iff_lt], ?_, ?_,
    by norm_num [handleZoom, clampOffset, resetImageTransform, coverScale,
      PREVIEW_SIZE, max_def, min_def]⟩
  · induction ds generalizing s with
    | nil => exact hlo
    | cons a l ih =>
      exact ih (handleZoom s a) (le_max_left _ _)
        (max_le (by norm_num) (min_le_left _ _))
  · induction ds generalizing s with
    | nil => exact hhi
    | cons a l ih =>
      exact ih (handleZoom s a) (le_max_left _ _)
        (max_le (by norm_num) (min_le_left _ _))

/-- Witness for C4 at the freshly loaded 800×400 state, one zoom-out
event and the sequence [zoom-out, zoom-in]. -/
theorem handleZoom_bounds_witness :
    ((1:ℚ) ≤ (resetImageTransform 800 400).imageScale ∧
     (resetImageTransform 800 400).imageScale ≤ 5) ∧
    ((handleZoom (resetImageTransform 800 400) 1).imageScale =
       max 1 (min 5 ((resetImageTransform 800 400).imageScale *
         (if (0:ℚ) < 1 then 9/10 else 11/10))) ∧
     1 ≤ (List.foldl handleZoom (resetImageTransform 800 400) [1, -1]).imageScale ∧
     (List.foldl handleZoom (resetImageTransform 800 400) [1, -1]).imageScale ≤ 5 ∧
     (List.foldl handleZoom (resetImageTransform 800 400) [-1, -1, -1]).imageScale
       = 1331/1000) :=
  ⟨⟨by norm_num [resetImageTransform], by norm_num [resetImageTransform]⟩,
   handleZoom_bounds (resetImageTransform 800 400) 1 [1, -1]
     (by norm_num [resetImageTransform]) (by norm_num [resetImageTransform])⟩

/-- C9: `clampOffset` is idempotent: applying it twice yields exactly the
same state as applying it once, for every TransformState. -/
theorem clampOffset_idem (s : TransformState) :
    clampOffset (clampOffset s) = clampOffset s := by
  simp only [clampOffset]
  exact congrArg₂ (fun x y => { s with imageOffsetX := x, imageOffsetY := y })
    (clamp_interval_idem _ _) (clamp_interval_idem _ _)

/-- C5 counterexample: feeding an image with zero natural dimensions to
the fit calculation raises no error and does not stop the reset: the
embedded `resetImageTransform` is total and at dimensions (0, 0) still
overwrites every field of the TransformState (zoom reset to 1, offsets
to 0, the degenerate dimensions recorded). -/
theorem resetImageTransform_zero_counterexample :
    (resetImageTransform 0 0).imageScale = 1 ∧
    (resetImageTransform 0 0).imageOffsetX = 0 ∧
    (resetImageTransform 0 0).imageOffsetY = 0 ∧
    (resetImageTransform 0 0).naturalWidth = 0 ∧
    (resetImageTransform 0 0).naturalHeight = 0 :=
  ⟨rfl, rfl, rfl, rfl, rfl⟩

/-- C5 amended: `resetImageTransform` performs no dimension validation
and signals no error: for every pair of dimensions, including zero ones,
it proceeds and overwrites the whole TransformState with zoom 1, offsets
0, the cover-scale division result and the given dimensions. -/
theorem resetImageTransform_total (W H : ℚ) :
    resetImageTransform W H =
      { imageScale := 1, imageOffsetX := 0, imageOffsetY := 0,
        baseCoverScale := coverScale W H PREVIEW_SIZE,
        naturalWidth := W, naturalHeight := H } :=
  rfl

/-- C6 counterexample: with the overlay element missing, the failure
`draw` surfaces is the generic TypeError thrown by `getComputedStyle` on
null — not a `MissingOverlayElement` error, which no code path
produces — and no download artifact results. -/
theorem draw_missing_overlay_counterexample :
    (draw ⟨.ok (), none, .ok (), resetImageTransform 800 400⟩).2 =
      some JsError.typeError ∧
    JsError.typeError ≠ JsError.missingOverlayElement ∧
    download ⟨.ok (), none, .ok (), resetImageTransform 800 400⟩ = none :=
  ⟨rfl, by decide, rfl⟩

/-- C6 amended: whenever the overlay element is missing and the portrait
decoded, `draw` stops with the generic TypeError after having already
cleared the canvas and drawn the portrait; the overlay is never
composited and `download` produces no file. -/
theorem draw_missing_overlay (env : DrawEnv) (hov : env.overlay = none)
    (him : env.imageLoad = .ok ()) :
    draw env =
      ([CanvasOp.clearRect,
        CanvasOp.drawImage (drawGeometry env.state).1 (drawGeometry env.state).2.1
          (drawGeometry env.state).2.2.1 (drawGeometry env.state).2.2.2.1],
       some JsError.typeError) ∧
    download env = none := by
  constructor
  · simp [draw, hov, him, getSvgString]
  · simp [download, draw, hov, him, getSvgString]

/-- Witness for C6's amended theorem at a concrete environment with the
portrait decoded and the overlay element absent. -/
theorem draw_missing_overlay_witness :
    ((⟨.ok (), none, .ok (), resetImageTransform 800 400⟩ : DrawEnv).overlay = none ∧
     (⟨.ok (), none, .ok (), resetImageTransform 800 400⟩ : DrawEnv).imageLoad = .ok ()) ∧
    (draw ⟨.ok (), none, .ok (), resetImageTransform 800 400⟩ =
       ([CanvasOp.clearRect,
         CanvasOp.drawImage
           (drawGeometry (⟨.ok (), none, .ok (), resetImageTransform 800 400⟩ : DrawEnv).state).1
           (drawGeometry (⟨.ok (), none, .ok (), resetImageTransform 800 400⟩ : DrawEnv).state).2.1
           (drawGeometry (⟨.ok (), none, .ok (), resetImageTransform 800 400⟩ : DrawEnv).state).2.2.1
           (drawGeometry (⟨.ok (), none, .ok (), resetImageTransform 800 400⟩ : DrawEnv).state).2.2.2.1],
        some JsError.typeError) ∧
     download ⟨.ok (), none, .ok (), resetImageTransform 800 400⟩ = none) :=
  ⟨⟨rfl, rfl⟩,
   draw_missing_overlay ⟨.ok (), none, .ok (), resetImageTransform 800 400⟩ rfl rfl⟩

/-- Decoding an upper-case hexadecimal digit emitted by the encoder
recovers the value. -/
lemma hexVal_hexUpper (n : Nat) (h : n < 16) : hexVal (hexUpper n) = some n := by
  unfold hexVal hexUpper
  split_ifs <;> simp_all <;> omega

/-- Percent-decoding undoes the encoding of a single byte at the head of
the stream. -/
lemma percentDecode_encodeByte (b : Nat) (hb : b < 256) (t r : List Nat)
    (ht : percentDecode t = some r) :
    percentDecode (encodeByte b ++ t) = some (b :: r) := by
  by_cases hu : isUnreservedByte b
  · have hb37 : b ≠ 37 := by
      intro h
      subst h
      simp [isUnreservedByte] at hu
    rw [show encodeByte b ++ t = b :: t by simp [encodeByte, hu]]
    rw [percentDecode.eq_def]
    simp [hb37, ht]
  · have h1 : hexVal (hexUpper (b / 16)) = some (b / 16) :=
      hexVal_hexUpper _ (by omega)
    have h2 : hexVal (hexUpper (b % 16)) = some (b % 16) :=
      hexVal_hexUpper _ (by omega)
    simp [encodeByte, hu, percentDecode, h1, h2, ht]
    omega

/-- A percent-free literal chunk passes through the decoder unchanged. -/
lemma percentDecode_literal_append (l : List Nat) (hl : ∀ c ∈ l, c ≠ 37)
    (t r : List Nat) (ht : percentDecode t = some r) :
    percentDecode (l ++ t) = some (l ++ r) := by
  revert hl
  induction l with
  | nil => intro _; simpa using ht
  | cons c cs ih =>
    intro hl
    have hc : c ≠ 37 := hl c (List.mem_cons_self c cs)
    have ihr := ih fun x hx => hl x (List.mem_cons_of_mem _ hx)
    rw [List.cons_append, percentDecode.eq_def]
    simp [hc, ihr]

/-- C7: the percent-encoding `draw` embeds the overlay with round-trips
byte for byte: for every serialized overlay byte string — multi-byte
UTF-8 sequences included — percent-decoding the `encodeURIComponent`
output recovers exactly the input, and decoding the full
`data:image/svg+xml;charset=utf-8,`-prefixed URI recovers the prefix
followed by exactly the input. -/
theorem percent_encoding_roundtrip (s : List Nat) (h : ∀ b ∈ s, b < 256) :
    percentDecode (encodeURIComponentBytes s) = some s ∧
    percentDecode (svgDataUri s) = some (svgDataUriPrefix ++ s) := by
  have main : percentDecode (encodeURIComponentBytes s) = some s := by
    revert h
    induction s with
    | nil => intro _; rfl
    | cons b bs ih =>
      intro h
      have hb : b < 256 := h b (List.mem_cons_self b bs)
      have hbs := ih fun x hx => h x (List.mem_cons_of_mem _ hx)
      exact percentDecode_encodeByte b hb _ bs hbs
  exact ⟨main, percentDecode_literal_append svgDataUriPrefix (by decide) _ _ main⟩

/-- Witness for C7 at the UTF-8 bytes of the bison emoji (a multi-byte
non-ASCII symbol). -/
theorem percent_encoding_roundtrip_witness :
    (∀ b ∈ [240, 159, 166, 172], b < 256) ∧
    (percentDecode (encodeURIComponentBytes [240, 159, 166, 172]) =
       some [240, 159, 166, 172] ∧
     percentDecode (svgDataUri [240, 159, 166, 172]) =
       some (svgDataUriPrefix ++ [240, 159, 166, 172])) :=
  ⟨by decide, percent_encoding_roundtrip [240, 159, 166, 172] (by decide)⟩

/-- Setting the same attribute to the same value twice equals setting it
once. -/
lemma setAttr_setAttr (a : List (String × String)) (k v : String) :
    setAttr (setAttr a k v) k v = setAttr a k v := by
  induction a with
  | nil => simp [setAttr]
  | cons p rest ih =>
    obtain ⟨k', v'⟩ := p
    by_cases h : k' = k
    · simp [setAttr, h]
    · simp [setAttr, h, ih]

mutual

/-- Style inlining is idempotent on an element: the second pass writes the
same `style` attribute value, since the computed-style data is fixed. -/
theorem inlineStylesE_idem (e : Elem) :
    inlineStylesE (inlineStylesE e) = inlineStylesE e := by
  match e with
  | .mk tag attrs computed children =>
    simp [inlineStylesE, setAttr_setAttr, inlineStylesL_idem children]

/-- Style inlining is idempotent on a sibling list. -/
theorem inlineStylesL_idem (l : ElemList) :
    inlineStylesL (inlineStylesL l) = inlineStylesL l := by
  match l with
  | .nil => simp [inlineStylesL]
  | .cons e rest =>
    simp [inlineStylesL, inlineStylesE_idem e, inlineStylesL_idem rest]

end

/-- C8: overlay serialization is deterministic across runs.  The first run
of `getSvgString` on a tree returns the serialized string together with
the style-inlined tree it left behind; running `getSvgString` again on
that mutated tree returns the byte-for-byte identical result. -/
theorem serializeOverlay_deterministic (t : Elem) :
    getSvgString (some (inlineStylesE t)) = getSvgString (some t) := by
  simp [getSvgString, inlineStylesE_idem t]

/-- Membership in a single-character `replaceAll` result comes either from
the replacement text or from an untouched original character. -/
lemma mem_replaceAllChar {c : Char} {s : List Char} {p : Char} {r : List Char}
    (h : c ∈ replaceAllChar s p r) : c ∈ r ∨ (c ∈ s ∧ c ≠ p) := by
  induction s with
  | nil => simp [replaceAllChar] at h
  | cons x xs ih =>
    simp only [replaceAllChar, List.mem_append] at h
    rcases h with h | h
    · by_cases hx : x = p
      · rw [if_pos hx] at h
        exact Or.inl h
      · rw [if_neg hx] at h
        simp at h
        subst h
        exact Or.inr ⟨List.mem_cons_self _ _, hx⟩
    · rcases ih h with h' | ⟨h1, h2⟩
      · exact Or.inl h'
      · exact Or.inr ⟨List.mem_cons_of_mem _ h1, h2⟩

/-- The output of `sanitizeHTML` never contains a raw `<`, `>`, double
quote or apostrophe: each is replaced by its entity and no replacement
text reintroduces one. -/
lemma special_not_mem_sanitizeHTML (c : Char)
    (hc : c = ltChar ∨ c = gtChar ∨ c = quotChar ∨ c = aposChar)
    (s : List Char) : c ∉ sanitizeHTML s := by
  intro hmem
  unfold sanitizeHTML at hmem
  rcases hc with rfl | rfl | rfl | rfl
  · rcases mem_replaceAllChar hmem with h | ⟨h, -⟩
    · exact absurd h (by decide)
    rcases mem_replaceAllChar h with h | ⟨h, -⟩
    · exact absurd h (by decide)
    rcases mem_replaceAllChar h with h | ⟨h, -⟩
    · exact absurd h (by decide)
    rcases mem_replaceAllChar h with h | ⟨-, hne⟩
    · exact absurd h (by decide)
    · exact hne rfl
  · rcases mem_replaceAllChar hmem with h | ⟨h, -⟩
    · exact absurd h (by decide)
    rcases mem_replaceAllChar h with h | ⟨h, -⟩
    · exact absurd h (by decide)
    rcases mem_replaceAllChar h with h | ⟨-, hne⟩
    · exact absurd h (by decide)
    · exact hne rfl
  · rcases mem_replaceAllChar hmem with h | ⟨h, -⟩
    · exact absurd h (by decide)
    rcases mem_replaceAllChar h with h | ⟨-, hne⟩
    · exact absurd h (by decide)
    · exact hne rfl
  · rcases mem_replaceAllChar hmem with h | ⟨-, hne⟩
    · exact absurd h (by decide)
    · exact hne rfl

/-- C10: the badge-text input listener sets the overlay text node to the
bison emoji followed by the raw upper-cased input.  `sanitizeHTML` is
never applied on this path: any of the five HTML-special characters
present in the input reaches the overlay markup unescaped, while the
sanitized form of the same text would not contain it (stated for the four
characters the entities do not themselves contain). -/
theorem badgeText_bypasses_sanitizeHTML (v : List Char) (c : Char)
    (hc : c = ampChar ∨ c = ltChar ∨ c = gtChar ∨ c = quotChar ∨ c = aposChar)
    (hv : c ∈ v) :
    badgeTextInnerHTML v = bisonChar :: jsToUpper v ∧
    c ∈ badgeTextInnerHTML v ∧
    (c ≠ ampChar → c ∉ sanitizeHTML (jsToUpper v) ∧
      badgeTextInnerHTML v ≠ bisonChar :: sanitizeHTML (jsToUpper v)) := by
  have hfix : asciiUpper c = c := by
    rcases hc with rfl | rfl | rfl | rfl | rfl <;> decide
  have hmem : c ∈ jsToUpper v := by
    have := List.mem_map_of_mem asciiUpper hv
    rwa [hfix] at this
  refine ⟨rfl, List.mem_cons_of_mem _ hmem, fun hamp => ?_⟩
  have hc' : c = ltChar ∨ c = gtChar ∨ c = quotChar ∨ c = aposChar := by
    rcases hc with rfl | hc4
    · exact absurd rfl hamp
    · exact hc4
  have hnot := special_not_mem_sanitizeHTML c hc' (jsToUpper v)
  refine ⟨hnot, fun heq => ?_⟩
  have hmem' : c ∈ bisonChar :: sanitizeHTML (jsToUpper v) :=
    heq ▸ List.mem_cons_of_mem _ hmem
  rcases List.mem_cons.mp hmem' with h | h
  · rcases hc' with rfl | rfl | rfl | rfl <;> exact absurd h (by decide)
  · exact hnot h

/-- Witness for C10 at the input `<b>` and the character `<`. -/
theorem badgeText_bypasses_sanitizeHTML_witness :
    ((ltChar = ampChar ∨ ltChar = ltChar ∨ ltChar = gtChar ∨
      ltChar = quotChar ∨ ltChar = aposChar) ∧
     ltChar ∈ ("<b>".toList)) ∧
    (badgeTextInnerHTML ("<b>".toList) = bisonChar :: jsToUpper ("<b>".toList) ∧
     ltChar ∈ badgeTextInnerHTML ("<b>".toList) ∧
     (ltChar ≠ ampChar → ltChar ∉ sanitizeHTML (jsToUpper ("<b>".toList)) ∧
       badgeTextInnerHTML ("<b>".toList) ≠
         bisonChar :: sanitizeHTML (jsToUpper ("<b>".toList)))) :=
  ⟨⟨by decide, by decide⟩,
   badgeText_bypasses_sanitizeHTML ("<b>".toList) ltChar (by decide) (by decide)⟩

end Badge
